import Mathlib

/-!
# Noise-level estimation of `web/model/model.go`

A shallow embedding of the noise estimator (`GetNoiseLevel`, `noiseCompute`,
`snrDb`, `plr`, `fact`, `p`) and the properties of it that the specification
states.

Conventions of the embedding:

* `float64` values are elements of an arbitrary linearly ordered field `α`
  (exact arithmetic); the definitions are computable and are run over `ℚ` in
  the concrete examples, and every general theorem holds in particular for
  `α = ℝ`.
* The functions of Go's `math` package that are not field operations
  (`Erfc`, `Sqrt`, `Pow`, `Log10`) are parameters, collected in `MathFns`.
* Go's `int` is the 64-bit two's-complement integer: products are reduced by
  `wrapInt64`.
* The `for` loop of `snrDb` has no bound in the source; the embedding takes a
  number of permitted iterations (`fuel`) and reports `Fault.outOfFuel` when the
  loop would need more.
* Divisions by a variable go through `checkedDiv`, which reports
  `Fault.divByZero` on a zero divisor, so that reachability of such a division is
  a statement about results.
* `GetNoiseLevelTraced` is the same loop paired with the list of the calls of
  `noiseCompute` and of the divisions by a variable that a run performs, each with
  the values it is performed on.
-/

namespace NoiseModel

/-! ## Data model -/

/-- Ways in which the total embedding can fail to produce a value. -/
inductive Fault where
  | outOfFuel
  | divByZero
  deriving DecidableEq

/-- The anonymous `Position` struct `{Lat, Lng float64}` of `Node` and `NoiseLevelData`. -/
structure LatLng (α : Type) where
  Lat : α
  Lng : α
  deriving DecidableEq

/-- Topology node (`Node`), restricted to the fields `GetNoiseLevel` reads. -/
structure Node (α : Type) where
  SensorID : Int
  Parent : Int
  Position : LatLng α
  deriving DecidableEq

/-- Output record `NoiseLevelData`. -/
structure NoiseLevelData (α : Type) where
  Gateway : String
  SensorID : Int
  NoiseLevel : α
  Position : LatLng α
  deriving DecidableEq

/-- Link statistics of one sensor, `PERData`. -/
structure PERData (α : Type) where
  SensorID : Int
  AvgRSSI : α
  AvgRxRSSI : α
  MacRxTotalDiff : α
  MacTxTotalDiff : α
  MacTxNoACKDiff : α
  MacTxLengthTotalDiff : α
  deriving DecidableEq

/-- The functions of Go's `math` package used by the estimator that are not field operations. -/
structure MathFns (α : Type) where
  Erfc : α → α
  Sqrt : α → α
  Pow : α → α → α
  Log10 : α → α

section Defs

variable {α : Type} [LinearOrderedField α]

/-! ## Signal model -/

/-- Reduction of an integer to the 64-bit two's-complement range. -/
def wrapInt64 (x : Int) : Int :=
  (x + 2 ^ 63) % 2 ^ 64 - 2 ^ 63

/-- The integer `res` of `fact` after its loop `for i := 2; i < n+1; i++ { res *= i }`,
each product wrapped to 64 bits. -/
def factInt (n : Nat) : Int :=
  (List.range' 2 (n - 1)).foldl (fun res i => wrapInt64 (res * (i : Int))) 1

/-- Go `fact`: `float64(res)`, the conversion taken as exact. -/
def fact (n : Nat) : α :=
  ((factInt n : Int) : α)

/-- Go `p`: the lookup table of decoding-failure probabilities. -/
def p (n : Nat) : α :=
  if n ≤ 5 then 0.000000
  else if n = 6 then 0.002000
  else if n = 7 then 0.013400
  else if n = 8 then 0.052300
  else if n = 9 then 0.149800
  else if n = 10 then 0.347900
  else if n = 11 then 0.649600
  else if n = 12 then 0.915600
  else if n = 13 then 0.996800
  else 1.000000

/-- The coefficient `fact(32)/(fact(i)*fact(32-i))` of the `i`-th summand of `plr`. -/
def plrCoef (i : Nat) : α :=
  fact 32 / (fact i * fact (32 - i))

/-- Go `plr`: frame loss probability at SNR `snrIn` for frames of `length` bytes. -/
def plr (M : MathFns α) (snrIn length : α) : α :=
  let bitErrorRate := 0.5 * M.Erfc (M.Sqrt (M.Pow 10 (snrIn / 10))) * 1.45
  let para := (List.range' 1 32).foldl
    (fun para i =>
      para + plrCoef i * M.Pow bitErrorRate (i : α) * (M.Pow (1 - bitErrorRate) ((32 - i : Nat) : α)) * p i)
    0.0
  1 - M.Pow (1 - para) (2 * length)

/-- The loop variables `midSNR`, `maxSNR`, `minSNR`, `midPLR` of `snrDb`. -/
structure BisectState (α : Type) where
  midSNR : α
  maxSNR : α
  minSNR : α
  midPLR : α
  deriving DecidableEq

/-- Outcome of one execution of the loop body of `snrDb`: a `return`, or the loop variables
for the next test of the loop condition. -/
inductive BodyResult (α : Type) where
  | returned (v : α)
  | continued (s : BisectState α)
  deriving DecidableEq

/-- The loop condition `math.Abs(minSNR-maxSNR) > 0.00001`. -/
def loopCond (s : BisectState α) : Prop :=
  |s.minSNR - s.maxSNR| > 0.00001

instance (s : BisectState α) : Decidable (loopCond s) := by
  unfold loopCond; infer_instance

/-- The body of the `for` loop of `snrDb` (lines 352-360), with the loss function `f` in place of
`plr`; `midPLR` is computed from the previous `midPLR`, as in the source. -/
def snrDbBody (f : α → α → α) (plrIn length : α) (s : BisectState α) : BodyResult α :=
  let midSNR := (s.maxSNR + s.minSNR) / 2
  let midPLR := f s.midPLR length
  if |plrIn - midPLR| < 0.00001 then .returned midSNR
  else if plrIn > midPLR then
    .continued { midSNR := midSNR, maxSNR := midSNR - 0.000001, minSNR := s.minSNR, midPLR := midPLR }
  else if plrIn < midPLR then
    .continued { midSNR := midSNR, maxSNR := s.maxSNR, minSNR := midSNR + 0.000001, midPLR := midPLR }
  else
    .continued { midSNR := midSNR, maxSNR := s.maxSNR, minSNR := s.minSNR, midPLR := midPLR }

/-- The `for` loop of `snrDb` followed by `return midSNR`, run for at most `fuel` iterations. -/
def snrDbLoop (f : α → α → α) (plrIn length : α) : Nat → BisectState α → Except Fault α
  | 0, s => if loopCond s then .error .outOfFuel else .ok s.midSNR
  | fuel + 1, s =>
    if loopCond s then
      match snrDbBody f plrIn length s with
      | .returned v => .ok v
      | .continued s1 => snrDbLoop f plrIn length fuel s1
    else .ok s.midSNR

/-- Go `snrDb`, with the loss function `f` in place of `plr`. -/
def snrDb (fuel : Nat) (f : α → α → α) (plrIn length : α) : Except Fault α :=
  snrDbLoop f plrIn length fuel
    { midSNR := 0.000000, maxSNR := 4.000000, minSNR := -4.000000, midPLR := f 0.000000 length }

/-- Division by a variable divisor. -/
def checkedDiv (a b : α) : Except Fault α :=
  if b = 0 then .error .divByZero else .ok (a / b)

/-- Go `noiseCompute`, with the loss function `f` in place of `plr`. -/
def noiseCompute (fuel : Nat) (f : α → α → α) (txTotal lostTotal rssi length : α) : Except Fault α :=
  match checkedDiv lostTotal txTotal with
  | .error e => .error e
  | .ok plrIn =>
    match snrDb fuel f plrIn length with
    | .error e => .error e
    | .ok snr => .ok (rssi - snr)

/-! ## Estimator -/

/-- The parent-link variables `txRssi`, `txTx`, `txLost`, `txLength` of one loop iteration. -/
structure ParentLink (α : Type) where
  txRssi : α
  txTx : α
  txLost : α
  txLength : α
  deriving DecidableEq

/-- The topology scan `for _, node := range nodeList` with its `break` (lines 302-309): the result is the
pair (`nl.Position`, `parent`) after the scan, where `pos` is `nl.Position` before it and
`parent` starts at `0`. -/
def topologyLookup : List (Node α) → Int → LatLng α → LatLng α × Int
  | [], _, pos => (pos, 0)
  | node :: rest, sensorID, pos =>
    if sensorID = node.SensorID then (node.Position, node.Parent)
    else topologyLookup rest sensorID pos

/-- The parent scan `for _, pp := range perList` (lines 310-317, no `break`): every entry whose `SensorID`
is `parent` overwrites the four variables, which start at zero. -/
def parentLookup (perList : List (PERData α)) (parent : Int) : ParentLink α :=
  perList.foldl
    (fun tx pp =>
      if pp.SensorID = parent then
        { txRssi := pp.AvgRxRSSI
          txTx := pp.MacTxTotalDiff
          txLost := pp.MacTxTotalDiff - pp.MacRxTotalDiff
          txLength := pp.MacTxLengthTotalDiff }
      else tx)
    { txRssi := 0, txTx := 0, txLost := 0, txLength := 0 }

/-- The variable `acTx` of the loop body (line 292). -/
def acTx (per : PERData α) : α :=
  per.MacRxTotalDiff

/-- The variable `acLost` of the loop body (line 293). -/
def acLost (per : PERData α) : α :=
  per.MacTxNoACKDiff - per.MacTxTotalDiff - per.MacRxTotalDiff

/-- The variable `acRssi` of the loop body (line 291). -/
def acRssi (per : PERData α) : α :=
  per.AvgRSSI

/-- The four-way branch on the traffic gates `acTx > 0` and `txTx > 0` that computes `noiseLevel`
(lines 318-329). -/
def noiseLevel (fuel : Nat) (M : MathFns α) (per : PERData α) (tx : ParentLink α) : Except Fault α :=
  if acTx per > 0 ∧ tx.txTx > 0 then do
    let ac ← noiseCompute fuel (plr M) (acTx per) (acLost per) (acRssi per) 20
    let acNosie := M.Pow 10 (ac / 10)
    let txLen ← checkedDiv tx.txLength tx.txTx
    let t ← noiseCompute fuel (plr M) tx.txTx tx.txLost tx.txRssi txLen
    let txNoise := M.Pow 10 (t / 10)
    let wTx ← checkedDiv (txNoise * tx.txTx) (tx.txTx + acTx per)
    let wAc ← checkedDiv (acNosie * acTx per) (tx.txTx + acTx per)
    pure (10 * M.Log10 (wTx + wAc))
  else if acTx per > 0 then
    noiseCompute fuel (plr M) (acTx per) (acLost per) (acRssi per) 20
  else if tx.txTx > 0 then do
    let txLen ← checkedDiv tx.txLength tx.txTx
    let t ← noiseCompute fuel (plr M) tx.txTx tx.txLost tx.txRssi txLen
    pure (M.Pow 10 (t / 10))
  else
    pure (-99.0)

/-- One iteration of `for _, p := range perList` (lines 290-334): from the value of `nl` left by
the previous iteration to the record appended in this one. `nl` is declared before the loop, so
its `Position` is the previous one unless the topology scan assigns it. -/
def loopBody (fuel : Nat) (M : MathFns α) (gatewayName : String) (nodeList : List (Node α))
    (perList : List (PERData α)) (nl : NoiseLevelData α) (per : PERData α) :
    Except Fault (NoiseLevelData α) :=
  let found := topologyLookup nodeList per.SensorID nl.Position
  let tx := parentLookup perList found.2
  match noiseLevel fuel M per tx with
  | .error e => .error e
  | .ok v =>
    .ok { Gateway := gatewayName, SensorID := per.SensorID, NoiseLevel := v, Position := found.1 }

/-- The loop `for _, p := range perList` over the entries still to visit, with the current
`nl` and `nlList`. -/
def estimatorLoop (fuel : Nat) (M : MathFns α) (gatewayName : String) (nodeList : List (Node α))
    (perList : List (PERData α)) :
    List (PERData α) → NoiseLevelData α → List (NoiseLevelData α) → Except Fault (List (NoiseLevelData α))
  | [], _, nlList => .ok nlList
  | per :: rest, nl, nlList =>
    match loopBody fuel M gatewayName nodeList perList nl per with
    | .error e => .error e
    | .ok nl1 => estimatorLoop fuel M gatewayName nodeList perList rest nl1 (nlList ++ [nl1])

/-- The zero value of `NoiseLevelData`, the initial `nl`. -/
def zeroNoiseLevelData : NoiseLevelData α :=
  { Gateway := "", SensorID := 0, NoiseLevel := 0, Position := { Lat := 0, Lng := 0 } }

/-- Go `GetNoiseLevel` after the two queries: the estimator loop over the topology `nodeList`
and the statistics `perList`. -/
def GetNoiseLevel (fuel : Nat) (M : MathFns α) (gatewayName : String) (nodeList : List (Node α))
    (perList : List (PERData α)) : Except Fault (List (NoiseLevelData α)) :=
  estimatorLoop fuel M gatewayName nodeList perList perList zeroNoiseLevelData []

/-! ## Estimator with a record of its calls and divisions

The same loop, each step paired with the list of the calls of `noiseCompute` and of the
divisions by a variable that it performs, in the order of execution. -/

/-- A call of `noiseCompute` or a division by a variable in the loop body of `GetNoiseLevel`. -/
inductive Event (α : Type) where
  /-- A call `noiseCompute(txTotal, ...)`, which divides by `txTotal`. -/
  | noiseComputeCall (txTotal : α)
  /-- The division `txLength/txTx` (lines 321 and 326). -/
  | frameLength (txLength txTx : α)
  /-- A division by `txTx+acTx` (line 322). -/
  | weight (txTx acTx : α)
  deriving DecidableEq

/-- The traffic gate that belongs to an event: a strictly positive `txTotal` for a call of
`noiseCompute`, a strictly positive `txTx` for `txLength/txTx`, and both `txTx` and `acTx`
strictly positive for a division by `txTx+acTx`. -/
def Event.Guarded : Event α → Prop
  | .noiseComputeCall txTotal => 0 < txTotal
  | .frameLength _ txTx => 0 < txTx
  | .weight txTx acTx => 0 < txTx ∧ 0 < acTx

instance (ev : Event α) : Decidable ev.Guarded := by
  cases ev <;> unfold Event.Guarded <;> infer_instance

/-- Sequencing of recorded steps: the events of the first step, then, if it yields a value,
those of the continuation. -/
def tracedBind {β γ : Type} (x : Except Fault β × List (Event α))
    (k : β → Except Fault γ × List (Event α)) : Except Fault γ × List (Event α) :=
  match x.1 with
  | .error e => (.error e, x.2)
  | .ok b => ((k b).1, x.2 ++ (k b).2)

/-- A call of `noiseCompute`, recorded with its first argument. -/
def tracedNoiseCompute (fuel : Nat) (f : α → α → α) (txTotal lostTotal rssi length : α) :
    Except Fault α × List (Event α) :=
  (noiseCompute fuel f txTotal lostTotal rssi length, [Event.noiseComputeCall txTotal])

/-- The division `txLength/txTx`, recorded. -/
def tracedFrameLength (txLength txTx : α) : Except Fault α × List (Event α) :=
  (checkedDiv txLength txTx, [Event.frameLength txLength txTx])

/-- A division `noise*traffic/(txTx+acTx)`, recorded. -/
def tracedWeight (noise traffic txTx acTx : α) : Except Fault α × List (Event α) :=
  (checkedDiv (noise * traffic) (txTx + acTx), [Event.weight txTx acTx])

/-- The branch on the traffic gates (lines 318-329) as in `noiseLevel`, with the record of its
calls and divisions. -/
def noiseLevelTraced (fuel : Nat) (M : MathFns α) (per : PERData α) (tx : ParentLink α) :
    Except Fault α × List (Event α) :=
  if acTx per > 0 ∧ tx.txTx > 0 then
    tracedBind (tracedNoiseCompute fuel (plr M) (acTx per) (acLost per) (acRssi per) 20) fun ac =>
    tracedBind (tracedFrameLength tx.txLength tx.txTx) fun txLen =>
    tracedBind (tracedNoiseCompute fuel (plr M) tx.txTx tx.txLost tx.txRssi txLen) fun t =>
    tracedBind (tracedWeight (M.Pow 10 (t / 10)) tx.txTx tx.txTx (acTx per)) fun wTx =>
    tracedBind (tracedWeight (M.Pow 10 (ac / 10)) (acTx per) tx.txTx (acTx per)) fun wAc =>
    (.ok (10 * M.Log10 (wTx + wAc)), [])
  else if acTx per > 0 then
    tracedNoiseCompute fuel (plr M) (acTx per) (acLost per) (acRssi per) 20
  else if tx.txTx > 0 then
    tracedBind (tracedFrameLength tx.txLength tx.txTx) fun txLen =>
    tracedBind (tracedNoiseCompute fuel (plr M) tx.txTx tx.txLost tx.txRssi txLen) fun t =>
    (.ok (M.Pow 10 (t / 10)), [])
  else
    (.ok (-99.0), [])

/-- One iteration of the loop as in `loopBody`, with the record of its calls and divisions. -/
def loopBodyTraced (fuel : Nat) (M : MathFns α) (gatewayName : String) (nodeList : List (Node α))
    (perList : List (PERData α)) (nl : NoiseLevelData α) (per : PERData α) :
    Except Fault (NoiseLevelData α) × List (Event α) :=
  let found := topologyLookup nodeList per.SensorID nl.Position
  let tx := parentLookup perList found.2
  let level := noiseLevelTraced fuel M per tx
  match level.1 with
  | .error e => (.error e, level.2)
  | .ok v =>
    (.ok { Gateway := gatewayName, SensorID := per.SensorID, NoiseLevel := v, Position := found.1 },
      level.2)

/-- The loop as in `estimatorLoop`, with the events recorded so far as a further argument. -/
def estimatorLoopTraced (fuel : Nat) (M : MathFns α) (gatewayName : String)
    (nodeList : List (Node α)) (perList : List (PERData α)) :
    List (PERData α) → NoiseLevelData α → List (NoiseLevelData α) → List (Event α) →
      Except Fault (List (NoiseLevelData α)) × List (Event α)
  | [], _, nlList, events => (.ok nlList, events)
  | per :: rest, nl, nlList, events =>
    match loopBodyTraced fuel M gatewayName nodeList perList nl per with
    | (.error e, evs) => (.error e, events ++ evs)
    | (.ok nl1, evs) =>
      estimatorLoopTraced fuel M gatewayName nodeList perList rest nl1 (nlList ++ [nl1])
        (events ++ evs)

/-- The estimator loop as in `GetNoiseLevel`, with the record of all calls of `noiseCompute` and
all divisions by a variable that the run performs. -/
def GetNoiseLevelTraced (fuel : Nat) (M : MathFns α) (gatewayName : String)
    (nodeList : List (Node α)) (perList : List (PERData α)) :
    Except Fault (List (NoiseLevelData α)) × List (Event α) :=
  estimatorLoopTraced fuel M gatewayName nodeList perList perList zeroNoiseLevelData [] []

/-! ## Reference bisection -/

/-- Body of the textbook bisection: as `snrDbBody`, but the value compared with the target is
`f` at the midpoint of the current iteration. -/
def snrDbTextbookBody (f : α → α → α) (plrIn length : α) (s : BisectState α) : BodyResult α :=
  let midSNR := (s.maxSNR + s.minSNR) / 2
  let midPLR := f midSNR length
  if |plrIn - midPLR| < 0.00001 then .returned midSNR
  else if plrIn > midPLR then
    .continued { midSNR := midSNR, maxSNR := midSNR - 0.000001, minSNR := s.minSNR, midPLR := midPLR }
  else if plrIn < midPLR then
    .continued { midSNR := midSNR, maxSNR := s.maxSNR, minSNR := midSNR + 0.000001, midPLR := midPLR }
  else
    .continued { midSNR := midSNR, maxSNR := s.maxSNR, minSNR := s.minSNR, midPLR := midPLR }

/-- Loop of the textbook bisection, run for at most `fuel` iterations. -/
def snrDbTextbookLoop (f : α → α → α) (plrIn length : α) : Nat → BisectState α → Except Fault α
  | 0, s => if loopCond s then .error .outOfFuel else .ok s.midSNR
  | fuel + 1, s =>
    if loopCond s then
      match snrDbTextbookBody f plrIn length s with
      | .returned v => .ok v
      | .continued s1 => snrDbTextbookLoop f plrIn length fuel s1
    else .ok s.midSNR

/-- Textbook bisection on `[-4, 4]`. -/
def snrDbTextbook (fuel : Nat) (f : α → α → α) (plrIn length : α) : Except Fault α :=
  snrDbTextbookLoop f plrIn length fuel
    { midSNR := 0.000000, maxSNR := 4.000000, minSNR := -4.000000, midPLR := f 0.000000 length }

end Defs

/-! ## Concrete inputs

Inputs over `ℚ` on which the properties below are instantiated or evaluated. -/

/-- Stand-ins over `ℚ` for the functions of Go's `math` package: `Pow` is constantly `1`, which
makes `plr` constantly `0`. -/
def exampleFns : MathFns ℚ :=
  { Erfc := fun _ => 0, Sqrt := fun x => x, Pow := fun _ _ => 1, Log10 := fun x => x }

/-- Topology with the single node 1, attached to the gateway (parent 0), at position (1, 2). -/
def exampleTopology : List (Node ℚ) :=
  [{ SensorID := 1, Parent := 0, Position := { Lat := 1, Lng := 2 } }]

/-- Statistics entry of sensor 1 without any traffic. -/
def idleSensor1 : PERData ℚ :=
  { SensorID := 1, AvgRSSI := -70, AvgRxRSSI := -70, MacRxTotalDiff := 0, MacTxTotalDiff := 0,
    MacTxNoACKDiff := 0, MacTxLengthTotalDiff := 0 }

/-- Statistics entry of sensor 2 without any traffic. -/
def idleSensor2 : PERData ℚ :=
  { SensorID := 2, AvgRSSI := -70, AvgRxRSSI := -70, MacRxTotalDiff := 0, MacTxTotalDiff := 0,
    MacTxNoACKDiff := 0, MacTxLengthTotalDiff := 0 }

/-- Statistics entry with sensor ID 0: 50 frames received, 50 transmitted, all acknowledged,
1000 bytes in total. -/
def busySensor0 : PERData ℚ :=
  { SensorID := 0, AvgRSSI := -60, AvgRxRSSI := -60, MacRxTotalDiff := 50, MacTxTotalDiff := 50,
    MacTxNoACKDiff := 0, MacTxLengthTotalDiff := 1000 }

/-- Statistics entry of sensor 1 with 100 frames received, 100 transmitted and 5 of them
not acknowledged. -/
def busySensor1 : PERData ℚ :=
  { SensorID := 1, AvgRSSI := -70, AvgRxRSSI := -70, MacRxTotalDiff := 100, MacTxTotalDiff := 100,
    MacTxNoACKDiff := 5, MacTxLengthTotalDiff := 2000 }

/-- A loss function that falls linearly from 1 at -4 dB to 0 at 4 dB, for every frame length. -/
def linearLoss (snr _length : ℚ) : ℚ :=
  (4 - snr) / 8

section Lookup

variable {α : Type}

/-! ## Lists and the topology scan -/

/-- Related lists are related index by index. -/
theorem forall2_getElem_some {β γ : Type} {R : β → γ → Prop} {l₁ : List β} {l₂ : List γ}
    (h : List.Forall₂ R l₁ l₂) : ∀ (i : Nat) (a : β), l₁[i]? = some a → ∃ b, l₂[i]? = some b ∧ R a b := by
  induction h with
  | nil => intro i a ha; simp at ha
  | cons hab _ ih =>
    intro i a ha
    cases i with
    | zero =>
      simp at ha
      subst ha
      exact ⟨_, by simp, hab⟩
    | succ j =>
      simp at ha
      obtain ⟨b, hb, hr⟩ := ih j a ha
      exact ⟨b, by simpa using hb, hr⟩

/-- The topology scan finds the first node with the given `SensorID`; without one it leaves the
position as it was and the parent at 0. -/
theorem topologyLookup_eq_find (nodeList : List (Node α)) (sensorID : Int) (pos : LatLng α) :
    topologyLookup nodeList sensorID pos =
      match nodeList.find? (fun node => decide (sensorID = node.SensorID)) with
      | some node => (node.Position, node.Parent)
      | none => (pos, 0) := by
  induction nodeList with
  | nil => rfl
  | cons node rest ih =>
    by_cases h : sensorID = node.SensorID
    · simp [topologyLookup, List.find?, h]
    · simp [topologyLookup, List.find?, h, ih]

/-- The parent found by the topology scan does not depend on the position carried in. -/
theorem topologyLookup_snd (nodeList : List (Node α)) (sensorID : Int) (pos pos1 : LatLng α) :
    (topologyLookup nodeList sensorID pos).2 = (topologyLookup nodeList sensorID pos1).2 := by
  rw [topologyLookup_eq_find, topologyLookup_eq_find]
  cases nodeList.find? (fun node => decide (sensorID = node.SensorID)) <;> rfl

/-- The parent found by the topology scan: that of the first node with the given `SensorID`, or 0. -/
theorem topologyLookup_parent (nodeList : List (Node α)) (sensorID : Int) (pos : LatLng α) :
    (topologyLookup nodeList sensorID pos).2 =
      ((nodeList.find? (fun node => decide (sensorID = node.SensorID))).map Node.Parent).getD 0 := by
  rw [topologyLookup_eq_find]
  cases nodeList.find? (fun node => decide (sensorID = node.SensorID)) <;> rfl

/-! ## Recorded steps -/

/-- The value of two recorded steps in sequence is the sequence of their values. -/
theorem tracedBind_fst {β γ : Type} (x : Except Fault β × List (Event α))
    (k : β → Except Fault γ × List (Event α)) :
    (tracedBind x k).1 = x.1 >>= fun b => (k b).1 := by
  unfold tracedBind
  cases x.1 <;> rfl

/-- An event of two recorded steps in sequence is one of the first step, or one of the
continuation at the value of the first step. -/
theorem tracedBind_mem {β γ : Type} {x : Except Fault β × List (Event α)}
    {k : β → Except Fault γ × List (Event α)} {ev : Event α} (h : ev ∈ (tracedBind x k).2) :
    ev ∈ x.2 ∨ ∃ b, x.1 = .ok b ∧ ev ∈ (k b).2 := by
  unfold tracedBind at h
  cases hx : x.1 with
  | error e =>
    rw [hx] at h
    exact Or.inl h
  | ok b =>
    rw [hx] at h
    rcases List.mem_append.mp h with h | h
    · exact Or.inl h
    · exact Or.inr ⟨b, rfl, h⟩

/-- The events of two recorded steps in sequence when the first step yields a value. -/
theorem tracedBind_snd_ok {β γ : Type} {x : Except Fault β × List (Event α)}
    (k : β → Except Fault γ × List (Event α)) {b : β} (hx : x.1 = .ok b) :
    (tracedBind x k).2 = x.2 ++ (k b).2 := by
  unfold tracedBind
  rw [hx]

end Lookup

section Lemmas

variable {α : Type} [LinearOrderedField α]

/-! ## The bisection loop -/

/-- Over an ordered field the loop body returns the midpoint, or lowers `maxSNR`, or raises
`minSNR`; its last `else` is never taken. -/
theorem snrDbBody_cases (f : α → α → α) (plrIn length : α) (s : BisectState α) :
    snrDbBody f plrIn length s = .returned ((s.maxSNR + s.minSNR) / 2) ∨
    snrDbBody f plrIn length s =
      .continued { midSNR := (s.maxSNR + s.minSNR) / 2, maxSNR := (s.maxSNR + s.minSNR) / 2 - 0.000001,
                   minSNR := s.minSNR, midPLR := f s.midPLR length } ∨
    snrDbBody f plrIn length s =
      .continued { midSNR := (s.maxSNR + s.minSNR) / 2, maxSNR := s.maxSNR,
                   minSNR := (s.maxSNR + s.minSNR) / 2 + 0.000001, midPLR := f s.midPLR length } := by
  unfold snrDbBody
  by_cases h1 : |plrIn - f s.midPLR length| < 0.00001
  · left; simp [h1]
  · by_cases h2 : plrIn > f s.midPLR length
    · right; left; simp [h1, h2]
    · by_cases h3 : plrIn < f s.midPLR length
      · right; right; simp [h1, h2, h3]
      · exfalso
        have : plrIn = f s.midPLR length := le_antisymm (not_lt.mp h2) (not_lt.mp h3)
        apply h1
        rw [this, sub_self, abs_zero]
        norm_num

/-- For an ordered bracket the loop condition says that the width exceeds `1e-5`. -/
theorem loopCond_width {s : BisectState α} (hc : loopCond s) (hle : s.minSNR ≤ s.maxSNR) :
    0.00001 < s.maxSNR - s.minSNR := by
  unfold loopCond at hc
  rw [abs_sub_comm, abs_of_nonneg (sub_nonneg.mpr hle)] at hc
  exact hc

/-- A value returned by the loop body is the midpoint of the bracket. -/
theorem snrDbBody_returned {f : α → α → α} {plrIn length : α} {s : BisectState α} {v : α}
    (h : snrDbBody f plrIn length s = .returned v) : v = (s.maxSNR + s.minSNR) / 2 := by
  rcases snrDbBody_cases f plrIn length s with h1 | h1 | h1 <;> rw [h1] at h
  · injection h with h; exact h.symm
  · cases h
  · cases h

/-- A loop body that continues from an ordered bracket leaves an ordered sub-bracket of half
the width less `1e-6`, with `midSNR` set to the old midpoint. -/
theorem snrDbBody_continued {f : α → α → α} {plrIn length : α} {s s1 : BisectState α}
    (hc : loopCond s) (hle : s.minSNR ≤ s.maxSNR)
    (h : snrDbBody f plrIn length s = .continued s1) :
    s.minSNR ≤ s1.minSNR ∧ s1.maxSNR ≤ s.maxSNR ∧ s1.minSNR ≤ s1.maxSNR ∧
    s1.maxSNR - s1.minSNR = (s.maxSNR - s.minSNR) / 2 - 0.000001 ∧
    s1.midSNR = (s.maxSNR + s.minSNR) / 2 := by
  have hw := loopCond_width hc hle
  have e1 : (0.00001 : α) = 1 / 100000 := by norm_num
  have e2 : (0.000001 : α) = 1 / 1000000 := by norm_num
  rw [e1] at hw
  rcases snrDbBody_cases f plrIn length s with h1 | h1 | h1 <;> rw [h1] at h
  · cases h
  · injection h with h; subst h
    refine ⟨le_refl _, ?_, ?_, ?_, rfl⟩ <;> (simp only [e2]; linarith)
  · injection h with h; subst h
    refine ⟨?_, le_refl _, ?_, ?_, rfl⟩ <;> (simp only [e2]; linarith)

/-- The loop returns when the permitted iterations cover the halvings of the bracket width. -/
theorem snrDbLoop_terminates (f : α → α → α) (plrIn length : α) :
    ∀ (fuel : Nat) (s : BisectState α), s.minSNR ≤ s.maxSNR →
      s.maxSNR - s.minSNR ≤ 0.00001 * 2 ^ fuel →
      ∃ v, snrDbLoop f plrIn length fuel s = .ok v := by
  intro fuel
  induction fuel with
  | zero =>
    intro s hle hw
    have : ¬ loopCond s := by
      intro hc
      have := loopCond_width hc hle
      rw [pow_zero, mul_one] at hw
      exact absurd hw (not_le.mpr this)
    exact ⟨s.midSNR, by simp [snrDbLoop, this]⟩
  | succ n ih =>
    intro s hle hw
    by_cases hc : loopCond s
    · cases hb : snrDbBody f plrIn length s with
      | returned v => exact ⟨v, by simp [snrDbLoop, hc, hb]⟩
      | continued s1 =>
        obtain ⟨_, _, h3, h4, _⟩ := snrDbBody_continued hc hle hb
        have hw1 : s1.maxSNR - s1.minSNR ≤ 0.00001 * 2 ^ n := by
          rw [h4]
          rw [pow_succ] at hw
          have e2 : (0 : α) ≤ 0.000001 := by norm_num
          linarith
        obtain ⟨v, hv⟩ := ih s1 h3 hw1
        exact ⟨v, by simp [snrDbLoop, hc, hb, hv]⟩
    · exact ⟨s.midSNR, by simp [snrDbLoop, hc]⟩

/-- Whatever the loop returns lies in any interval that contains the bracket and `midSNR`. -/
theorem snrDbLoop_bracket (f : α → α → α) (plrIn length lo hi : α) :
    ∀ (fuel : Nat) (s : BisectState α) (v : α), lo ≤ s.minSNR → s.maxSNR ≤ hi →
      s.minSNR ≤ s.maxSNR → lo ≤ s.midSNR → s.midSNR ≤ hi →
      snrDbLoop f plrIn length fuel s = .ok v → lo ≤ v ∧ v ≤ hi := by
  intro fuel
  induction fuel with
  | zero =>
    intro s v _ _ _ hm1 hm2 h
    by_cases hc : loopCond s
    · simp [snrDbLoop, hc] at h
    · simp [snrDbLoop, hc] at h
      subst h; exact ⟨hm1, hm2⟩
  | succ n ih =>
    intro s v hlo hhi hle hm1 hm2 h
    by_cases hc : loopCond s
    · cases hb : snrDbBody f plrIn length s with
      | returned w =>
        simp [snrDbLoop, hc, hb] at h
        subst h
        rw [snrDbBody_returned hb]
        constructor <;> linarith
      | continued s1 =>
        simp [snrDbLoop, hc, hb] at h
        obtain ⟨h1, h2, h3, _, h5⟩ := snrDbBody_continued hc hle hb
        exact ih s1 v (le_trans hlo h1) (le_trans h2 hhi) h3
          (by rw [h5]; linarith) (by rw [h5]; linarith) h
    · simp [snrDbLoop, hc] at h
      subst h; exact ⟨hm1, hm2⟩

/-- One more permitted iteration does not change a returned value. -/
theorem snrDbLoop_fuel_succ (f : α → α → α) (plrIn length : α) :
    ∀ (fuel : Nat) (s : BisectState α) (v : α),
      snrDbLoop f plrIn length fuel s = .ok v → snrDbLoop f plrIn length (fuel + 1) s = .ok v := by
  intro fuel
  induction fuel with
  | zero =>
    intro s v h
    by_cases hc : loopCond s
    · simp [snrDbLoop, hc] at h
    · simp [snrDbLoop, hc] at h
      simp [snrDbLoop, hc, h]
  | succ n ih =>
    intro s v h
    by_cases hc : loopCond s
    · cases hb : snrDbBody f plrIn length s with
      | returned w =>
        simp [snrDbLoop, hc, hb] at h
        simp [snrDbLoop, hc, hb, h]
      | continued s1 =>
        rw [snrDbLoop] at h
        simp only [hc, hb, if_true] at h
        have := ih s1 v h
        rw [snrDbLoop]
        simp only [hc, hb, if_true]
        exact this
    · simp [snrDbLoop, hc] at h
      simp [snrDbLoop, hc, h]

/-- More permitted iterations do not change a returned value. -/
theorem snrDbLoop_fuel_mono (f : α → α → α) (plrIn length : α) (s : BisectState α) (v : α)
    {fuel fuel1 : Nat} (hle : fuel ≤ fuel1)
    (h : snrDbLoop f plrIn length fuel s = .ok v) : snrDbLoop f plrIn length fuel1 s = .ok v := by
  induction hle with
  | refl => exact h
  | step _ ih => exact snrDbLoop_fuel_succ f plrIn length _ s v ih

/-! ## `snrDb`, `noiseCompute` and the branch on the traffic gates -/

/-- With 20 iterations allowed, `snrDb` returns a value, and that value lies in `[-4, 4]`. -/
theorem snrDb_ok_of_fuel (f : α → α → α) (plrIn length : α) {fuel : Nat} (hfuel : 20 ≤ fuel) :
    ∃ v, snrDb fuel f plrIn length = .ok v ∧ -4 ≤ v ∧ v ≤ 4 := by
  obtain ⟨v, hv⟩ := snrDbLoop_terminates f plrIn length 20
    { midSNR := 0.000000, maxSNR := 4.000000, minSNR := -4.000000, midPLR := f 0.000000 length }
    (by norm_num) (by norm_num)
  have hb := snrDbLoop_bracket f plrIn length (-4) 4 20 _ v (by norm_num) (by norm_num)
    (by norm_num) (by norm_num) (by norm_num) hv
  exact ⟨v, snrDbLoop_fuel_mono f plrIn length _ v hfuel hv, hb⟩

/-- The bisection loop performs no checked division. -/
theorem snrDbLoop_ne_divByZero (f : α → α → α) (plrIn length : α) :
    ∀ (fuel : Nat) (s : BisectState α), snrDbLoop f plrIn length fuel s ≠ .error .divByZero := by
  intro fuel
  induction fuel with
  | zero =>
    intro s
    by_cases hc : loopCond s <;> simp [snrDbLoop, hc]
  | succ n ih =>
    intro s
    by_cases hc : loopCond s
    · cases hb : snrDbBody f plrIn length s with
      | returned w => simp [snrDbLoop, hc, hb]
      | continued s1 =>
        rw [snrDbLoop]
        simp only [hc, hb, if_true]
        exact ih s1
    · simp [snrDbLoop, hc]

/-- With 20 iterations permitted and a nonzero `txTotal`, `noiseCompute` returns `rssi` less a
value of `[-4, 4]`. -/
theorem noiseCompute_ok (f : α → α → α) (txTotal lostTotal rssi length : α) {fuel : Nat}
    (hfuel : 20 ≤ fuel) (htx : txTotal ≠ 0) :
    ∃ snr, snrDb fuel f (lostTotal / txTotal) length = .ok snr ∧ -4 ≤ snr ∧ snr ≤ 4 ∧
      noiseCompute fuel f txTotal lostTotal rssi length = .ok (rssi - snr) := by
  obtain ⟨v, hv, h1, h2⟩ := snrDb_ok_of_fuel f (lostTotal / txTotal) length hfuel
  exact ⟨v, hv, h1, h2, by simp [noiseCompute, checkedDiv, htx, hv]⟩

/-- With a nonzero `txTotal`, `noiseCompute` does not divide by zero. -/
theorem noiseCompute_ne_divByZero (f : α → α → α) (txTotal lostTotal rssi length : α) (fuel : Nat)
    (htx : txTotal ≠ 0) :
    noiseCompute fuel f txTotal lostTotal rssi length ≠ .error .divByZero := by
  have h := snrDbLoop_ne_divByZero f (lostTotal / txTotal) length fuel
    { midSNR := 0.000000, maxSNR := 4.000000, minSNR := -4.000000, midPLR := f 0.000000 length }
  unfold noiseCompute checkedDiv
  simp only [htx, if_false]
  cases hs : snrDb fuel f (lostTotal / txTotal) length with
  | error e =>
    simp only
    intro he
    injection he with he
    subst he
    exact h hs
  | ok v => simp

/-- A checked division by a nonzero divisor is the quotient. -/
theorem checkedDiv_ok (a : α) {b : α} (hb : b ≠ 0) : checkedDiv a b = .ok (a / b) := by
  simp [checkedDiv, hb]

/-- Both traffic gates closed: the sentinel `-99.0`. -/
theorem noiseLevel_none (fuel : Nat) (M : MathFns α) (per : PERData α) (tx : ParentLink α)
    (h1 : ¬ acTx per > 0) (h2 : ¬ tx.txTx > 0) : noiseLevel fuel M per tx = .ok (-99.0) := by
  rw [noiseLevel, if_neg (fun h => h1 h.1), if_neg h1, if_neg h2]
  rfl

/-- Only the own-link gate open: `noiseCompute` of the own-link counters with frame length 20. -/
theorem noiseLevel_own (fuel : Nat) (M : MathFns α) (per : PERData α) (tx : ParentLink α)
    (h1 : acTx per > 0) (h2 : ¬ tx.txTx > 0) :
    noiseLevel fuel M per tx = noiseCompute fuel (plr M) (acTx per) (acLost per) (acRssi per) 20 := by
  rw [noiseLevel, if_neg (fun h => h2 h.2), if_pos h1]

/-- With 20 iterations permitted, the branch on the traffic gates yields a value. -/
theorem noiseLevel_ok (M : MathFns α) (per : PERData α) (tx : ParentLink α) {fuel : Nat}
    (hfuel : 20 ≤ fuel) : ∃ v, noiseLevel fuel M per tx = .ok v := by
  by_cases ha : acTx per > 0
  · by_cases ht : tx.txTx > 0
    · obtain ⟨s1, _, _, _, e1⟩ := noiseCompute_ok (plr M) (acTx per) (acLost per) (acRssi per) 20
        hfuel (ne_of_gt ha)
      obtain ⟨s2, _, _, _, e2⟩ := noiseCompute_ok (plr M) tx.txTx tx.txLost tx.txRssi
        (tx.txLength / tx.txTx) hfuel (ne_of_gt ht)
      have hsum : tx.txTx + acTx per ≠ 0 := ne_of_gt (add_pos ht ha)
      rw [noiseLevel, if_pos ⟨ha, ht⟩]
      simp only [bind, Except.bind, e1, e2, checkedDiv_ok _ (ne_of_gt ht), checkedDiv_ok _ hsum]
      exact ⟨_, rfl⟩
    · rw [noiseLevel_own fuel M per tx ha ht]
      obtain ⟨s1, _, _, _, e1⟩ := noiseCompute_ok (plr M) (acTx per) (acLost per) (acRssi per) 20
        hfuel (ne_of_gt ha)
      exact ⟨_, e1⟩
  · by_cases ht : tx.txTx > 0
    · obtain ⟨s2, _, _, _, e2⟩ := noiseCompute_ok (plr M) tx.txTx tx.txLost tx.txRssi
        (tx.txLength / tx.txTx) hfuel (ne_of_gt ht)
      rw [noiseLevel, if_neg (fun h => ha h.1), if_neg ha, if_pos ht]
      simp only [bind, Except.bind, e2, checkedDiv_ok _ (ne_of_gt ht)]
      exact ⟨_, rfl⟩
    · exact ⟨_, noiseLevel_none fuel M per tx ha ht⟩

/-- The branch on the traffic gates never divides by zero. -/
theorem noiseLevel_ne_divByZero (fuel : Nat) (M : MathFns α) (per : PERData α) (tx : ParentLink α) :
    noiseLevel fuel M per tx ≠ .error .divByZero := by
  by_cases ha : acTx per > 0
  · have n1 := noiseCompute_ne_divByZero (plr M) (acTx per) (acLost per) (acRssi per) 20 fuel
      (ne_of_gt ha)
    by_cases ht : tx.txTx > 0
    · have n2 := noiseCompute_ne_divByZero (plr M) tx.txTx tx.txLost tx.txRssi
        (tx.txLength / tx.txTx) fuel (ne_of_gt ht)
      have hsum : tx.txTx + acTx per ≠ 0 := ne_of_gt (add_pos ht ha)
      rw [noiseLevel, if_pos ⟨ha, ht⟩]
      simp only [bind, Except.bind, checkedDiv_ok _ (ne_of_gt ht), checkedDiv_ok _ hsum]
      cases e1 : noiseCompute fuel (plr M) (acTx per) (acLost per) (acRssi per) 20 with
      | error e =>
        rw [e1] at n1
        simpa using n1
      | ok v1 =>
        cases e2 : noiseCompute fuel (plr M) tx.txTx tx.txLost tx.txRssi (tx.txLength / tx.txTx) with
        | error e =>
          rw [e2] at n2
          simpa using n2
        | ok v2 => simp [pure, Except.pure]
    · rw [noiseLevel_own fuel M per tx ha ht]
      exact n1
  · by_cases ht : tx.txTx > 0
    · have n2 := noiseCompute_ne_divByZero (plr M) tx.txTx tx.txLost tx.txRssi
        (tx.txLength / tx.txTx) fuel (ne_of_gt ht)
      rw [noiseLevel, if_neg (fun h => ha h.1), if_neg ha, if_pos ht]
      simp only [bind, Except.bind, checkedDiv_ok _ (ne_of_gt ht)]
      cases e2 : noiseCompute fuel (plr M) tx.txTx tx.txLost tx.txRssi (tx.txLength / tx.txTx) with
      | error e =>
        rw [e2] at n2
        simpa using n2
      | ok v2 => simp [pure, Except.pure]
    · rw [noiseLevel_none fuel M per tx ha ht]
      simp
/-! ## The estimator loop -/

/-- The `txTx` left by the parent scan: the transmitted total of the last entry with the
parent's `SensorID`, or 0. -/
theorem parentLookup_txTx_eq_find (perList : List (PERData α)) (parent : Int) :
    (parentLookup perList parent).txTx =
      ((perList.reverse.find? (fun pp => decide (pp.SensorID = parent))).map
        PERData.MacTxTotalDiff).getD 0 := by
  unfold parentLookup
  induction perList using List.reverseRecOn with
  | nil => rfl
  | append_singleton l a ih =>
    rw [List.foldl_append, List.reverse_append]
    by_cases h : a.SensorID = parent
    · simp [List.find?, h]
    · simp only [List.foldl, h, if_false, List.reverse_cons, List.reverse_nil, List.nil_append,
        List.singleton_append, List.find?, decide_False]
      exact ih

/-- With 20 iterations permitted the estimator loop returns its accumulator extended by one
record per remaining entry, each with the gateway name, the entry's `SensorID` and the noise
level of the branch on the traffic gates. -/
theorem estimatorLoop_spec (M : MathFns α) (gatewayName : String) (nodeList : List (Node α))
    (perList : List (PERData α)) {fuel : Nat} (hfuel : 20 ≤ fuel) :
    ∀ (rest : List (PERData α)) (nl : NoiseLevelData α) (nlList : List (NoiseLevelData α)),
      ∃ out, estimatorLoop fuel M gatewayName nodeList perList rest nl nlList = .ok (nlList ++ out) ∧
        List.Forall₂
          (fun per r => r.Gateway = gatewayName ∧ r.SensorID = per.SensorID ∧
            ∃ pos, noiseLevel fuel M per
              (parentLookup perList (topologyLookup nodeList per.SensorID pos).2) = .ok r.NoiseLevel)
          rest out := by
  intro rest
  induction rest with
  | nil =>
    intro nl nlList
    exact ⟨[], by simp [estimatorLoop], List.Forall₂.nil⟩
  | cons per rest ih =>
    intro nl nlList
    obtain ⟨v, hv⟩ := noiseLevel_ok M per
      (parentLookup perList (topologyLookup nodeList per.SensorID nl.Position).2) hfuel
    obtain ⟨nl1, hnl1⟩ : ∃ nl1 : NoiseLevelData α, nl1 =
        { Gateway := gatewayName, SensorID := per.SensorID, NoiseLevel := v,
          Position := (topologyLookup nodeList per.SensorID nl.Position).1 } := ⟨_, rfl⟩
    have hb : loopBody fuel M gatewayName nodeList perList nl per = .ok nl1 := by
      simp [loopBody, hv, hnl1]
    obtain ⟨out, ho, hf⟩ := ih nl1 (nlList ++ [nl1])
    refine ⟨nl1 :: out, ?_, List.Forall₂.cons ?_ hf⟩
    · rw [estimatorLoop, hb]
      simp only [ho, List.append_assoc, List.singleton_append]
    · subst hnl1
      exact ⟨rfl, rfl, nl.Position, hv⟩

/-- The estimator loop never divides by zero. -/
theorem estimatorLoop_ne_divByZero (fuel : Nat) (M : MathFns α) (gatewayName : String)
    (nodeList : List (Node α)) (perList : List (PERData α)) :
    ∀ (rest : List (PERData α)) (nl : NoiseLevelData α) (nlList : List (NoiseLevelData α)),
      estimatorLoop fuel M gatewayName nodeList perList rest nl nlList ≠ .error .divByZero := by
  intro rest
  induction rest with
  | nil => intro nl nlList; simp [estimatorLoop]
  | cons per rest ih =>
    intro nl nlList
    have hn := noiseLevel_ne_divByZero fuel M per
      (parentLookup perList (topologyLookup nodeList per.SensorID nl.Position).2)
    rw [estimatorLoop, loopBody]
    cases hv : noiseLevel fuel M per
        (parentLookup perList (topologyLookup nodeList per.SensorID nl.Position).2) with
    | error e =>
      rw [hv] at hn
      simpa using hn
    | ok v =>
      simp only
      exact ih _ _

/-- Sequencing after a successful step. -/
theorem bind_ok {β γ : Type} (a : β) (k : β → Except Fault γ) : (Except.ok a >>= k) = k a := rfl

/-- A loop iteration whose body returns. -/
theorem snrDbLoop_returned {f : α → α → α} {plrIn length : α} {s : BisectState α} {v : α}
    (fuel : Nat) (hc : loopCond s) (hb : snrDbBody f plrIn length s = .returned v) :
    snrDbLoop f plrIn length (fuel + 1) s = .ok v := by
  rw [snrDbLoop, if_pos hc, hb]

/-- A loop iteration whose body continues. -/
theorem snrDbLoop_continued {f : α → α → α} {plrIn length : α} {s s1 : BisectState α}
    (fuel : Nat) (hc : loopCond s) (hb : snrDbBody f plrIn length s = .continued s1) :
    snrDbLoop f plrIn length (fuel + 1) s = snrDbLoop f plrIn length fuel s1 := by
  rw [snrDbLoop, if_pos hc, hb]

/-- While the loop condition holds, whatever the loop returns lies in any interval that
contains the bracket. -/
theorem snrDbLoop_bracket_of_loopCond (f : α → α → α) (plrIn length lo hi : α) (fuel : Nat)
    (s : BisectState α) (v : α) (hc : loopCond s) (hlo : lo ≤ s.minSNR) (hhi : s.maxSNR ≤ hi)
    (hle : s.minSNR ≤ s.maxSNR) (h : snrDbLoop f plrIn length fuel s = .ok v) :
    lo ≤ v ∧ v ≤ hi := by
  cases fuel with
  | zero => simp [snrDbLoop, hc] at h
  | succ n =>
    cases hb : snrDbBody f plrIn length s with
    | returned w =>
      rw [snrDbLoop_returned n hc hb] at h
      injection h with h
      subst h
      rw [snrDbBody_returned hb]
      constructor <;> linarith
    | continued s1 =>
      rw [snrDbLoop_continued n hc hb] at h
      obtain ⟨h1, h2, h3, _, h5⟩ := snrDbBody_continued hc hle hb
      exact snrDbLoop_bracket f plrIn length lo hi n s1 v (le_trans hlo h1) (le_trans h2 hhi) h3
        (by rw [h5]; linarith) (by rw [h5]; linarith) h

/-- The record that the estimator loop emits for the entry at index `i`: its noise level is the
value of the branch on the traffic gates for that entry and the parent found by the topology
scan. -/
theorem GetNoiseLevel_record (M : MathFns α) (gatewayName : String) (nodeList : List (Node α))
    (perList : List (PERData α)) {fuel : Nat} (hfuel : 20 ≤ fuel) (i : Nat) (per : PERData α)
    (hi : perList[i]? = some per) (pos : LatLng α) :
    ∃ out r, GetNoiseLevel fuel M gatewayName nodeList perList = .ok out ∧ out[i]? = some r ∧
      noiseLevel fuel M per (parentLookup perList (topologyLookup nodeList per.SensorID pos).2) =
        .ok r.NoiseLevel := by
  obtain ⟨out, ho, hf⟩ :=
    estimatorLoop_spec M gatewayName nodeList perList hfuel perList zeroNoiseLevelData []
  obtain ⟨r, hr, _, _, pos1, hn⟩ := forall2_getElem_some hf i per hi
  refine ⟨out, r, by simpa [GetNoiseLevel] using ho, hr, ?_⟩
  rw [topologyLookup_snd nodeList per.SensorID pos pos1]
  exact hn

/-- Under the premises of the loss-ratio requirement, the own-link ratio is at most `-1`. -/
theorem acLost_div_acTx_le_neg_one (per : PERData α) (hack : per.MacTxNoACKDiff ≤ per.MacTxTotalDiff)
    (hrx : 0 < per.MacRxTotalDiff) : acLost per / acTx per ≤ -1 := by
  unfold acLost acTx
  rw [div_le_iff₀ hrx]
  linarith

/-! ## The record of calls and divisions -/

/-- Dropping the record from `noiseLevelTraced` leaves `noiseLevel`. -/
theorem noiseLevelTraced_fst (fuel : Nat) (M : MathFns α) (per : PERData α) (tx : ParentLink α) :
    (noiseLevelTraced fuel M per tx).1 = noiseLevel fuel M per tx := by
  unfold noiseLevelTraced noiseLevel
  split
  · simp only [tracedBind_fst, tracedNoiseCompute, tracedFrameLength, tracedWeight]
    rfl
  · split
    · rfl
    · split
      · simp only [tracedBind_fst, tracedNoiseCompute, tracedFrameLength]
        rfl
      · rfl

/-- Every call and every division recorded by `noiseLevelTraced` has its traffic gate open. -/
theorem noiseLevelTraced_guarded (fuel : Nat) (M : MathFns α) (per : PERData α)
    (tx : ParentLink α) : ∀ ev ∈ (noiseLevelTraced fuel M per tx).2, ev.Guarded := by
  intro ev hev
  unfold noiseLevelTraced at hev
  by_cases ha : acTx per > 0
  · by_cases ht : tx.txTx > 0
    · rw [if_pos ⟨ha, ht⟩] at hev
      rcases tracedBind_mem hev with h | ⟨_, _, hev⟩
      · simp only [tracedNoiseCompute, List.mem_singleton] at h
        subst h; exact ha
      rcases tracedBind_mem hev with h | ⟨_, _, hev⟩
      · simp only [tracedFrameLength, List.mem_singleton] at h
        subst h; exact ht
      rcases tracedBind_mem hev with h | ⟨_, _, hev⟩
      · simp only [tracedNoiseCompute, List.mem_singleton] at h
        subst h; exact ht
      rcases tracedBind_mem hev with h | ⟨_, _, hev⟩
      · simp only [tracedWeight, List.mem_singleton] at h
        subst h; exact ⟨ht, ha⟩
      rcases tracedBind_mem hev with h | ⟨_, _, hev⟩
      · simp only [tracedWeight, List.mem_singleton] at h
        subst h; exact ⟨ht, ha⟩
      · simp at hev
    · rw [if_neg (fun h => ht h.2), if_pos ha] at hev
      simp only [tracedNoiseCompute, List.mem_singleton] at hev
      subst hev; exact ha
  · rw [if_neg (fun h => ha h.1), if_neg ha] at hev
    by_cases ht : tx.txTx > 0
    · rw [if_pos ht] at hev
      rcases tracedBind_mem hev with h | ⟨_, _, hev⟩
      · simp only [tracedFrameLength, List.mem_singleton] at h
        subst h; exact ht
      rcases tracedBind_mem hev with h | ⟨_, _, hev⟩
      · simp only [tracedNoiseCompute, List.mem_singleton] at h
        subst h; exact ht
      · simp at hev
    · rw [if_neg ht] at hev
      simp at hev

/-- Dropping the record from `loopBodyTraced` leaves `loopBody`. -/
theorem loopBodyTraced_fst (fuel : Nat) (M : MathFns α) (gatewayName : String)
    (nodeList : List (Node α)) (perList : List (PERData α)) (nl : NoiseLevelData α)
    (per : PERData α) :
    (loopBodyTraced fuel M gatewayName nodeList perList nl per).1 =
      loopBody fuel M gatewayName nodeList perList nl per := by
  unfold loopBodyTraced loopBody
  simp only [noiseLevelTraced_fst]
  cases noiseLevel fuel M per
    (parentLookup perList (topologyLookup nodeList per.SensorID nl.Position).2) <;> rfl

/-- The events of `loopBodyTraced` are those of `noiseLevelTraced`. -/
theorem loopBodyTraced_snd (fuel : Nat) (M : MathFns α) (gatewayName : String)
    (nodeList : List (Node α)) (perList : List (PERData α)) (nl : NoiseLevelData α)
    (per : PERData α) :
    (loopBodyTraced fuel M gatewayName nodeList perList nl per).2 =
      (noiseLevelTraced fuel M per
        (parentLookup perList (topologyLookup nodeList per.SensorID nl.Position).2)).2 := by
  unfold loopBodyTraced
  simp only
  cases (noiseLevelTraced fuel M per
    (parentLookup perList (topologyLookup nodeList per.SensorID nl.Position).2)).1 <;> rfl

/-- Dropping the record from `estimatorLoopTraced` leaves `estimatorLoop`. -/
theorem estimatorLoopTraced_fst (fuel : Nat) (M : MathFns α) (gatewayName : String)
    (nodeList : List (Node α)) (perList : List (PERData α)) :
    ∀ (rest : List (PERData α)) (nl : NoiseLevelData α) (nlList : List (NoiseLevelData α))
      (events : List (Event α)),
      (estimatorLoopTraced fuel M gatewayName nodeList perList rest nl nlList events).1 =
        estimatorLoop fuel M gatewayName nodeList perList rest nl nlList := by
  intro rest
  induction rest with
  | nil => intro nl nlList events; rfl
  | cons per rest ih =>
    intro nl nlList events
    have h1 := loopBodyTraced_fst fuel M gatewayName nodeList perList nl per
    rw [estimatorLoopTraced, estimatorLoop, ← h1]
    rcases hb : loopBodyTraced fuel M gatewayName nodeList perList nl per with ⟨r, evs⟩
    cases r with
    | error e => rfl
    | ok nl1 => exact ih nl1 _ _

/-- Every event recorded by `estimatorLoopTraced` has its traffic gate open, if those recorded
before have. -/
theorem estimatorLoopTraced_guarded (fuel : Nat) (M : MathFns α) (gatewayName : String)
    (nodeList : List (Node α)) (perList : List (PERData α)) :
    ∀ (rest : List (PERData α)) (nl : NoiseLevelData α) (nlList : List (NoiseLevelData α))
      (events : List (Event α)), (∀ ev ∈ events, ev.Guarded) →
      ∀ ev ∈ (estimatorLoopTraced fuel M gatewayName nodeList perList rest nl nlList events).2,
        ev.Guarded := by
  intro rest
  induction rest with
  | nil => intro nl nlList events h ev hev; exact h ev hev
  | cons per rest ih =>
    intro nl nlList events h
    have h2 := loopBodyTraced_snd fuel M gatewayName nodeList perList nl per
    have hg := noiseLevelTraced_guarded fuel M per
      (parentLookup perList (topologyLookup nodeList per.SensorID nl.Position).2)
    rw [← h2] at hg
    rw [estimatorLoopTraced]
    rcases hb : loopBodyTraced fuel M gatewayName nodeList perList nl per with ⟨r, evs⟩
    rw [hb] at hg
    have hall : ∀ ev ∈ events ++ evs, ev.Guarded := by
      intro ev hev
      rcases List.mem_append.mp hev with h1 | h1
      · exact h ev h1
      · exact hg ev h1
    cases r with
    | error e => exact hall
    | ok nl1 => exact ih nl1 _ _ hall

/-- With 20 iterations permitted every step of a branch yields a value, so the record of
`noiseLevelTraced` is the full list of the calls and divisions of the branch taken. -/
theorem noiseLevelTraced_events (M : MathFns α) (per : PERData α) (tx : ParentLink α) {fuel : Nat}
    (hfuel : 20 ≤ fuel) :
    (noiseLevelTraced fuel M per tx).2 =
      if acTx per > 0 ∧ tx.txTx > 0 then
        [Event.noiseComputeCall (acTx per), Event.frameLength tx.txLength tx.txTx,
          Event.noiseComputeCall tx.txTx, Event.weight tx.txTx (acTx per),
          Event.weight tx.txTx (acTx per)]
      else if acTx per > 0 then [Event.noiseComputeCall (acTx per)]
      else if tx.txTx > 0 then
        [Event.frameLength tx.txLength tx.txTx, Event.noiseComputeCall tx.txTx]
      else [] := by
  unfold noiseLevelTraced
  by_cases ha : acTx per > 0
  · by_cases ht : tx.txTx > 0
    · obtain ⟨s1, _, _, _, e1⟩ := noiseCompute_ok (plr M) (acTx per) (acLost per) (acRssi per) 20
        hfuel (ne_of_gt ha)
      obtain ⟨s2, _, _, _, e2⟩ := noiseCompute_ok (plr M) tx.txTx tx.txLost tx.txRssi
        (tx.txLength / tx.txTx) hfuel (ne_of_gt ht)
      have hsum : tx.txTx + acTx per ≠ 0 := ne_of_gt (add_pos ht ha)
      rw [if_pos ⟨ha, ht⟩, if_pos ⟨ha, ht⟩,
        tracedBind_snd_ok _ (show (tracedNoiseCompute fuel (plr M) (acTx per) (acLost per)
          (acRssi per) 20).1 = .ok _ from e1),
        tracedBind_snd_ok _ (show (tracedFrameLength tx.txLength tx.txTx).1 = .ok _ from
          checkedDiv_ok _ (ne_of_gt ht)),
        tracedBind_snd_ok _ (show (tracedNoiseCompute fuel (plr M) tx.txTx tx.txLost tx.txRssi
          (tx.txLength / tx.txTx)).1 = .ok _ from e2),
        tracedBind_snd_ok _ (show (tracedWeight _ tx.txTx tx.txTx (acTx per)).1 = .ok _ from
          checkedDiv_ok _ hsum),
        tracedBind_snd_ok _ (show (tracedWeight _ (acTx per) tx.txTx (acTx per)).1 = .ok _ from
          checkedDiv_ok _ hsum)]
      rfl
    · have hc : ¬ (acTx per > 0 ∧ tx.txTx > 0) := fun h => ht h.2
      simp only [if_neg hc, if_pos ha]
      rfl
  · have hc : ¬ (acTx per > 0 ∧ tx.txTx > 0) := fun h => ha h.1
    simp only [if_neg hc, if_neg ha]
    by_cases ht : tx.txTx > 0
    · obtain ⟨s2, _, _, _, e2⟩ := noiseCompute_ok (plr M) tx.txTx tx.txLost tx.txRssi
        (tx.txLength / tx.txTx) hfuel (ne_of_gt ht)
      simp only [if_pos ht]
      rw [tracedBind_snd_ok _ (show (tracedFrameLength tx.txLength tx.txTx).1 = .ok _ from
          checkedDiv_ok _ (ne_of_gt ht)),
        tracedBind_snd_ok _ (show (tracedNoiseCompute fuel (plr M) tx.txTx tx.txLost tx.txRssi
          (tx.txLength / tx.txTx)).1 = .ok _ from e2)]
      rfl
    · simp only [if_neg ht]

/-- With 20 iterations permitted the record of the loop is, entry after entry, the record of
the branch on the traffic gates for that entry. -/
theorem estimatorLoopTraced_events (M : MathFns α) (gatewayName : String)
    (nodeList : List (Node α)) (perList : List (PERData α)) (pos : LatLng α) {fuel : Nat}
    (hfuel : 20 ≤ fuel) :
    ∀ (rest : List (PERData α)) (nl : NoiseLevelData α) (nlList : List (NoiseLevelData α))
      (events : List (Event α)),
      (estimatorLoopTraced fuel M gatewayName nodeList perList rest nl nlList events).2 =
        events ++ rest.flatMap (fun per =>
          (noiseLevelTraced fuel M per
            (parentLookup perList (topologyLookup nodeList per.SensorID pos).2)).2) := by
  intro rest
  induction rest with
  | nil => intro nl nlList events; simp [estimatorLoopTraced]
  | cons per rest ih =>
    intro nl nlList events
    have h1 := loopBodyTraced_fst fuel M gatewayName nodeList perList nl per
    have h2 := loopBodyTraced_snd fuel M gatewayName nodeList perList nl per
    obtain ⟨v, hv⟩ := noiseLevel_ok M per
      (parentLookup perList (topologyLookup nodeList per.SensorID nl.Position).2) hfuel
    rw [topologyLookup_snd nodeList per.SensorID nl.Position pos] at h2
    rw [estimatorLoopTraced]
    rcases hb : loopBodyTraced fuel M gatewayName nodeList perList nl per with ⟨r, evs⟩
    rw [hb] at h1 h2
    simp only at h1 h2
    cases r with
    | error e =>
      simp [loopBody, hv] at h1
    | ok nl1 =>
      simp only
      rw [ih nl1 _ _, h2, List.flatMap_cons, List.append_assoc]

end Lemmas

/-! ## Evaluations on the concrete inputs -/

/-- With the stand-in functions `plr` is constantly 0. -/
theorem plr_exampleFns (snrIn length : ℚ) : plr exampleFns snrIn length = 0 := by
  simp [plr, exampleFns]

/-- With the stand-in functions, `snrDb` for the target 0 returns the first midpoint, 0. -/
theorem snrDb_exampleFns_zero (length : ℚ) : snrDb 20 (plr exampleFns) 0 length = .ok 0 := by
  unfold snrDb
  apply snrDbLoop_returned
  · norm_num [loopCond]
  · norm_num [snrDbBody, plr_exampleFns]

/-- The parent scan for parent 0 picks the entry with sensor ID 0. -/
theorem parentLookup_busySensor0 : parentLookup [idleSensor1, busySensor0] 0 =
    { txRssi := -60, txTx := 50, txLost := 0, txLength := 1000 } := by
  simp [parentLookup, idleSensor1, busySensor0]

/-- Sensor 1 without own traffic and with the entry of sensor 0 as parent link: the
parent-only branch, with value `Pow(10, -60/10)`, which is 1 for the stand-in `Pow`. -/
theorem noiseLevel_parent_only_example :
    noiseLevel 20 exampleFns idleSensor1
      { txRssi := -60, txTx := 50, txLost := 0, txLength := 1000 } = .ok 1 := by
  have h1 : checkedDiv (1000 : ℚ) 50 = .ok 20 := by
    rw [checkedDiv_ok _ (by norm_num)]; norm_num
  have h2 : noiseCompute 20 (plr exampleFns) 50 0 (-60) 20 = .ok (-60) := by
    rw [noiseCompute, checkedDiv_ok _ (by norm_num)]
    norm_num [snrDb_exampleFns_zero]
  have h3 : noiseLevel 20 exampleFns idleSensor1
      { txRssi := -60, txTx := 50, txLost := 0, txLength := 1000 } =
      (checkedDiv (1000 : ℚ) 50 >>= fun txLen =>
        noiseCompute 20 (plr exampleFns) 50 0 (-60) txLen >>= fun t =>
          pure (exampleFns.Pow 10 (t / 10))) := by
    rw [noiseLevel, if_neg (by norm_num [acTx, idleSensor1]),
      if_neg (by norm_num [acTx, idleSensor1]), if_pos (by norm_num)]
  rw [h3, h1, bind_ok, h2, bind_ok]
  rfl

set_option maxRecDepth 100000 in
/-- Values of the wrapped factorial. -/
theorem factInt_values : factInt 1 = 1 ∧ factInt 21 = -4249290049419214848 ∧
    factInt 31 = 4999213071378415616 ∧ factInt 32 = -6045878379276664832 := by
  decide

set_option maxRecDepth 100000 in
/-- Up to 32, the wrapped factorial is the factorial exactly for arguments up to 20. -/
theorem factInt_eq_factorial_iff :
    ∀ n : Fin 33, factInt n.val = (Nat.factorial n.val : Int) ↔ n.val ≤ 20 := by
  decide

set_option maxRecDepth 100000 in
/-- For `i` from 1 to 31, `fact(32)` is not `C(32,i) * (fact(i) * fact(32-i))`. -/
theorem factInt_choose : ∀ i : Fin 32, 1 ≤ i.val →
    factInt 32 ≠ (Nat.choose 32 i.val : Int) * (factInt i.val * factInt (32 - i.val)) := by
  decide

set_option maxRecDepth 100000 in
/-- Up to 32, the wrapped factorial is not zero. -/
theorem factInt_ne_zero : ∀ n : Fin 33, factInt n.val ≠ 0 := by
  decide

/-- For every `i` from 1 to 31 the coefficient that `plr` computes differs from `C(32, i)`. -/
theorem plrCoef_ne_choose (i : Nat) (h1 : 1 ≤ i) (h31 : i ≤ 31) :
    (plrCoef i : ℚ) ≠ (Nat.choose 32 i : ℚ) := by
  intro h
  have hi := factInt_ne_zero ⟨i, by omega⟩
  have hj := factInt_ne_zero ⟨32 - i, by omega⟩
  have hc := factInt_choose ⟨i, by omega⟩ h1
  simp only at hi hj hc
  apply hc
  have hne : ((factInt i : ℤ) : ℚ) * ((factInt (32 - i) : ℤ) : ℚ) ≠ 0 :=
    mul_ne_zero (by exact_mod_cast hi) (by exact_mod_cast hj)
  unfold plrCoef fact at h
  rw [div_eq_iff hne] at h
  exact_mod_cast h

/-- The coefficient for `i = 32` is `C(32, 32) = 1`. -/
theorem plrCoef_thirty_two : (plrCoef 32 : ℚ) = 1 := by
  have h0 : factInt 0 = 1 := by decide
  have h := factInt_ne_zero ⟨32, by omega⟩
  simp only at h
  unfold plrCoef fact
  rw [show 32 - 32 = 0 from rfl, h0]
  have : ((factInt 32 : ℤ) : ℚ) ≠ 0 := by exact_mod_cast h
  field_simp

/-- The record of the run on sensor 1 (no own traffic, parent 0) and an entry with sensor ID 0
(50 frames received and transmitted): the parent-only branch for sensor 1, then the combined
branch for the entry of sensor 0, whose parent scan finds that entry itself. -/
theorem GetNoiseLevelTraced_example :
    (GetNoiseLevelTraced 20 exampleFns "gw" exampleTopology [idleSensor1, busySensor0]).2 =
      [Event.frameLength 1000 50, Event.noiseComputeCall 50,
        Event.noiseComputeCall 50, Event.frameLength 1000 50, Event.noiseComputeCall 50,
        Event.weight 50 50, Event.weight 50 50] := by
  have h := estimatorLoopTraced_events exampleFns "gw" exampleTopology [idleSensor1, busySensor0]
    ({ Lat := 0, Lng := 0 } : LatLng ℚ) (le_refl 20) [idleSensor1, busySensor0]
    zeroNoiseLevelData [] []
  have h1 : (topologyLookup exampleTopology idleSensor1.SensorID
      ({ Lat := 0, Lng := 0 } : LatLng ℚ)).2 = 0 := rfl
  have h0 : (topologyLookup exampleTopology busySensor0.SensorID
      ({ Lat := 0, Lng := 0 } : LatLng ℚ)).2 = 0 := rfl
  have a1 : acTx idleSensor1 = 0 := rfl
  have a0 : acTx busySensor0 = 50 := rfl
  rw [GetNoiseLevelTraced, h, List.nil_append, List.flatMap_cons, List.flatMap_cons,
    List.flatMap_nil, h1, h0, parentLookup_busySensor0,
    noiseLevelTraced_events exampleFns idleSensor1 _ (le_refl 20),
    noiseLevelTraced_events exampleFns busySensor0 _ (le_refl 20), a1, a0]
  norm_num

/-! ## The claims -/

section Claims

variable {α : Type} [LinearOrderedField α]

/-- C1: with enough iterations permitted for the bisection, the estimator loop returns a
sequence with as many records as the statistics input has entries, and the record at every
index carries the `SensorID` of the entry at that index and the gateway name argument. -/
theorem GetNoiseLevel_one_record_per_entry (M : MathFns α) (gatewayName : String)
    (nodeList : List (Node α)) (perList : List (PERData α)) (fuel : Nat) (hfuel : 20 ≤ fuel) :
    ∃ out, GetNoiseLevel fuel M gatewayName nodeList perList = .ok out ∧
      out.length = perList.length ∧
      ∀ (i : Nat) (per : PERData α), perList[i]? = some per →
        ∃ r, out[i]? = some r ∧ r.SensorID = per.SensorID ∧ r.Gateway = gatewayName := by
  obtain ⟨out, ho, hf⟩ :=
    estimatorLoop_spec M gatewayName nodeList perList hfuel perList zeroNoiseLevelData []
  refine ⟨out, by simpa [GetNoiseLevel] using ho, hf.length_eq.symm, ?_⟩
  intro i per hi
  obtain ⟨r, hr, hg, hs, _⟩ := forall2_getElem_some hf i per hi
  exact ⟨r, hr, hs, hg⟩

/-- Witness of C1 on a two-entry statistics input with a one-node topology. -/
theorem GetNoiseLevel_one_record_per_entry_witness :
    20 ≤ 20 ∧
    ∃ out, GetNoiseLevel 20 exampleFns "gw" exampleTopology [idleSensor1, idleSensor2] = .ok out ∧
      out.length = [idleSensor1, idleSensor2].length ∧
      ∀ (i : Nat) (per : PERData ℚ), [idleSensor1, idleSensor2][i]? = some per →
        ∃ r, out[i]? = some r ∧ r.SensorID = per.SensorID ∧ r.Gateway = "gw" :=
  ⟨by decide, GetNoiseLevel_one_record_per_entry exampleFns "gw" exampleTopology
    [idleSensor1, idleSensor2] 20 (by decide)⟩

/-- C8: in every run of the estimator loop, for every input and every bound on the bisection
iterations, each call of `noiseCompute` has a strictly positive `txTotal`, each division
`txLength/txTx` a strictly positive `txTx`, and each division by `txTx+acTx` strictly positive
`txTx` and `acTx`; no division by a zero divisor is reached. The record is that of the loop
itself (dropping it leaves `GetNoiseLevel`), and with 20 iterations permitted the run yields a
result and the record lists, entry after entry, all calls and divisions of the branch taken. -/
theorem GetNoiseLevel_divisions_behind_open_gates (M : MathFns α) (gatewayName : String)
    (nodeList : List (Node α)) (perList : List (PERData α)) :
    (∀ fuel : Nat, ∀ ev ∈ (GetNoiseLevelTraced fuel M gatewayName nodeList perList).2,
      ev.Guarded) ∧
    (∀ fuel : Nat, (GetNoiseLevelTraced fuel M gatewayName nodeList perList).1 =
      GetNoiseLevel fuel M gatewayName nodeList perList) ∧
    (∀ fuel : Nat, GetNoiseLevel fuel M gatewayName nodeList perList ≠ .error .divByZero) ∧
    (∃ out, GetNoiseLevel 20 M gatewayName nodeList perList = .ok out) ∧
    (∀ fuel : Nat, 20 ≤ fuel →
      (GetNoiseLevelTraced fuel M gatewayName nodeList perList).2 =
        perList.flatMap (fun per =>
          (noiseLevelTraced fuel M per
            (parentLookup perList
              (((nodeList.find? (fun node => decide (per.SensorID = node.SensorID))).map
                Node.Parent).getD 0))).2)) ∧
    (∀ (fuel : Nat) (per : PERData α) (tx : ParentLink α), 20 ≤ fuel →
      (noiseLevelTraced fuel M per tx).2 =
        if acTx per > 0 ∧ tx.txTx > 0 then
          [Event.noiseComputeCall (acTx per), Event.frameLength tx.txLength tx.txTx,
            Event.noiseComputeCall tx.txTx, Event.weight tx.txTx (acTx per),
            Event.weight tx.txTx (acTx per)]
        else if acTx per > 0 then [Event.noiseComputeCall (acTx per)]
        else if tx.txTx > 0 then
          [Event.frameLength tx.txLength tx.txTx, Event.noiseComputeCall tx.txTx]
        else []) := by
  refine ⟨?_, ?_, ?_, ?_, ?_, ?_⟩
  · intro fuel
    exact estimatorLoopTraced_guarded fuel M gatewayName nodeList perList perList
      zeroNoiseLevelData [] [] (fun ev hev => absurd hev (List.not_mem_nil ev))
  · intro fuel
    exact estimatorLoopTraced_fst fuel M gatewayName nodeList perList perList
      zeroNoiseLevelData [] []
  · intro fuel
    exact estimatorLoop_ne_divByZero fuel M gatewayName nodeList perList perList
      zeroNoiseLevelData []
  · obtain ⟨out, ho, _⟩ :=
      estimatorLoop_spec M gatewayName nodeList perList (le_refl 20) perList zeroNoiseLevelData []
    exact ⟨out, by simpa [GetNoiseLevel] using ho⟩
  · intro fuel hfuel
    have h := estimatorLoopTraced_events M gatewayName nodeList perList
      ({ Lat := 0, Lng := 0 } : LatLng α) hfuel perList zeroNoiseLevelData [] []
    rw [List.nil_append] at h
    rw [GetNoiseLevelTraced, h]
    congr 1
    funext per
    rw [topologyLookup_parent]
  · intro fuel per tx hfuel
    exact noiseLevelTraced_events M per tx hfuel

/-- C5: for every loss function, target and frame length the loop of `snrDb` ends within 100
iterations; the loop stops as soon as the bracket is at most `1e-5` wide; and every iteration
that starts from an ordered bracket and does not return leaves an ordered bracket that is
strictly narrower (half as wide, less `1e-6`). The initial bracket `[-4, 4]` has width 8. -/
theorem snrDb_terminates_within_100 (f : α → α → α) (plrIn length : α) :
    (∃ v, snrDb 100 f plrIn length = .ok v) ∧
    (∀ (fuel : Nat) (s : BisectState α), s.minSNR ≤ s.maxSNR → s.maxSNR - s.minSNR ≤ 0.00001 →
      snrDbLoop f plrIn length fuel s = .ok s.midSNR) ∧
    (∀ s s1 : BisectState α, s.minSNR ≤ s.maxSNR → loopCond s →
      snrDbBody f plrIn length s = .continued s1 →
      s1.minSNR ≤ s1.maxSNR ∧
      s1.maxSNR - s1.minSNR = (s.maxSNR - s.minSNR) / 2 - 0.000001 ∧
      s1.maxSNR - s1.minSNR < s.maxSNR - s.minSNR) := by
  refine ⟨?_, ?_, ?_⟩
  · obtain ⟨v, hv, _⟩ := snrDb_ok_of_fuel f plrIn length (show 20 ≤ 100 by decide)
    exact ⟨v, hv⟩
  · intro fuel s hle hw
    have hc : ¬ loopCond s := fun hc => absurd hw (not_le.mpr (loopCond_width hc hle))
    cases fuel <;> simp [snrDbLoop, hc]
  · intro s s1 hle hc hb
    obtain ⟨_, _, h3, h4, _⟩ := snrDbBody_continued hc hle hb
    refine ⟨h3, h4, ?_⟩
    have hw := loopCond_width hc hle
    have e1 : (0 : α) < 0.00001 := by norm_num
    have e2 : (0 : α) < 0.000001 := by norm_num
    rw [h4]
    linarith

/-- C10: with enough iterations permitted, `snrDb` returns a value of the search domain
`[-4, 4]`, and for a positive `txTotal` the result of `noiseCompute` is within 4 of `rssi`. -/
theorem snrDb_in_search_domain (f : α → α → α) (plrIn length txTotal lostTotal rssi : α)
    (fuel : Nat) (hfuel : 20 ≤ fuel) (htx : 0 < txTotal) :
    (∃ v, snrDb fuel f plrIn length = .ok v ∧ -4 ≤ v ∧ v ≤ 4) ∧
    ∃ r, noiseCompute fuel f txTotal lostTotal rssi length = .ok r ∧ |r - rssi| ≤ 4 := by
  refine ⟨snrDb_ok_of_fuel f plrIn length hfuel, ?_⟩
  obtain ⟨snr, _, h1, h2, hn⟩ := noiseCompute_ok f txTotal lostTotal rssi length hfuel (ne_of_gt htx)
  refine ⟨_, hn, ?_⟩
  rw [abs_le]
  constructor <;> linarith

/-- Witness of C10 for the loss function `linearLoss`, 100 transmitted and 5 lost frames. -/
theorem snrDb_in_search_domain_witness :
    (20 ≤ 20 ∧ (0 : ℚ) < 100) ∧
    (∃ v, snrDb 20 linearLoss (1 / 20 : ℚ) 20 = .ok v ∧ -4 ≤ v ∧ v ≤ 4) ∧
    ∃ r, noiseCompute 20 linearLoss (100 : ℚ) 5 (-70) 20 = .ok r ∧
      |r - (-70)| ≤ 4 :=
  ⟨⟨by decide, by decide⟩,
    snrDb_in_search_domain linearLoss (1 / 20 : ℚ) 20 100 5 (-70) 20 (by decide) (by decide)⟩

/-- C7: let `parent` be the parent that the topology gives for the sensor of a statistics entry
(0 when the topology has no node for it) and let the parent traffic be the transmitted-frame
total of the statistics entry with the parent's `SensorID` (the last one, should there be
several), or 0 when there is none. If neither the entry's received-frame total nor the parent
traffic is positive, the record emitted for the entry has noise level exactly `-99.0`. -/
theorem zero_traffic_gives_sentinel (M : MathFns α) (gatewayName : String)
    (nodeList : List (Node α)) (perList : List (PERData α)) (fuel i : Nat) (per : PERData α)
    (parent : Int) (hfuel : 20 ≤ fuel) (hi : perList[i]? = some per)
    (hparent : parent =
      ((nodeList.find? (fun node => decide (per.SensorID = node.SensorID))).map Node.Parent).getD 0)
    (hown : ¬ 0 < per.MacRxTotalDiff)
    (hpt : ¬ 0 <
      ((perList.reverse.find? (fun pp => decide (pp.SensorID = parent))).map
        PERData.MacTxTotalDiff).getD 0) :
    ∃ out r, GetNoiseLevel fuel M gatewayName nodeList perList = .ok out ∧ out[i]? = some r ∧
      r.NoiseLevel = -99.0 := by
  obtain ⟨out, r, ho, hr, hn⟩ :=
    GetNoiseLevel_record M gatewayName nodeList perList hfuel i per hi { Lat := 0, Lng := 0 }
  refine ⟨out, r, ho, hr, ?_⟩
  rw [topologyLookup_parent, ← hparent] at hn
  have htx : ¬ (parentLookup perList parent).txTx > 0 := by
    rw [parentLookup_txTx_eq_find]
    exact hpt
  rw [noiseLevel_none fuel M per _ hown htx] at hn
  injection hn with hn
  exact hn.symm

/-- Witness of C7: sensor 1 without traffic, attached to the gateway, no entry for sensor 0. -/
theorem zero_traffic_gives_sentinel_witness :
    (20 ≤ 20 ∧ [idleSensor1, idleSensor2][0]? = some idleSensor1 ∧
      (0 : Int) =
        ((exampleTopology.find? (fun node => decide (idleSensor1.SensorID = node.SensorID))).map
          Node.Parent).getD 0 ∧
      ¬ 0 < idleSensor1.MacRxTotalDiff ∧
      ¬ 0 <
        (([idleSensor1, idleSensor2].reverse.find? (fun pp => decide (pp.SensorID = 0))).map
          PERData.MacTxTotalDiff).getD 0) ∧
    ∃ out r, GetNoiseLevel 20 exampleFns "gw" exampleTopology [idleSensor1, idleSensor2] = .ok out ∧
      out[0]? = some r ∧ r.NoiseLevel = (-99.0 : ℚ) :=
  ⟨⟨by decide, rfl, rfl, by simp [idleSensor1], by simp [idleSensor1, idleSensor2]⟩,
    zero_traffic_gives_sentinel exampleFns "gw" exampleTopology [idleSensor1, idleSensor2] 20 0
      idleSensor1 0 (by decide) rfl rfl (by simp [idleSensor1]) (by simp [idleSensor1, idleSensor2])⟩

/-- C6, as stated, fails: sensor 1 has the topology parent 0 and no received frames, the
statistics contain an entry with sensor ID 0 that transmitted 50 frames, and the record of
sensor 1 gets the parent-link value `Pow(10, -60/10)` (here 1) instead of `-99.0`. -/
theorem gateway_child_uses_entry_of_sensor_zero :
    exampleTopology.find? (fun node => decide (idleSensor1.SensorID = node.SensorID)) =
      some { SensorID := 1, Parent := 0, Position := { Lat := 1, Lng := 2 } } ∧
    ¬ 0 < idleSensor1.MacRxTotalDiff ∧
    ∃ out r, GetNoiseLevel 20 exampleFns "gw" exampleTopology [idleSensor1, busySensor0] = .ok out ∧
      out[0]? = some r ∧ r.NoiseLevel = 1 ∧ r.NoiseLevel ≠ (-99.0 : ℚ) := by
  refine ⟨rfl, by simp [idleSensor1], ?_⟩
  obtain ⟨out, r, ho, hr, hn⟩ :=
    GetNoiseLevel_record exampleFns "gw" exampleTopology [idleSensor1, busySensor0] (le_refl 20) 0
      idleSensor1 rfl { Lat := 0, Lng := 0 }
  have hp : (topologyLookup exampleTopology idleSensor1.SensorID
      ({ Lat := 0, Lng := 0 } : LatLng ℚ)).2 = 0 := rfl
  rw [hp, parentLookup_busySensor0, noiseLevel_parent_only_example] at hn
  injection hn with hn
  refine ⟨out, r, ho, hr, hn.symm, ?_⟩
  rw [← hn]
  norm_num

/-- C6, amended: for an entry whose topology node has parent 0, provided that the last
statistics entry with sensor ID 0, if there is one, has a transmitted-frame total that is not
positive, the emitted noise level is `noiseCompute` of the own-link counters with frame
length 20 when the received-frame total is positive, and `-99.0` otherwise. -/
theorem gateway_child_own_link_only (M : MathFns α) (gatewayName : String)
    (nodeList : List (Node α)) (perList : List (PERData α)) (fuel i : Nat) (per : PERData α)
    (node : Node α) (hfuel : 20 ≤ fuel) (hi : perList[i]? = some per)
    (hnode : nodeList.find? (fun node => decide (per.SensorID = node.SensorID)) = some node)
    (hroot : node.Parent = 0)
    (hzero : ∀ pp, perList.reverse.find? (fun pp => decide (pp.SensorID = 0)) = some pp →
      ¬ 0 < pp.MacTxTotalDiff) :
    ∃ out r, GetNoiseLevel fuel M gatewayName nodeList perList = .ok out ∧ out[i]? = some r ∧
      (0 < per.MacRxTotalDiff →
        noiseCompute fuel (plr M) per.MacRxTotalDiff
          (per.MacTxNoACKDiff - per.MacTxTotalDiff - per.MacRxTotalDiff) per.AvgRSSI 20 =
          .ok r.NoiseLevel) ∧
      (¬ 0 < per.MacRxTotalDiff → r.NoiseLevel = -99.0) := by
  obtain ⟨out, r, ho, hr, hn⟩ :=
    GetNoiseLevel_record M gatewayName nodeList perList hfuel i per hi { Lat := 0, Lng := 0 }
  refine ⟨out, r, ho, hr, ?_, ?_⟩
  all_goals
    intro hown
    rw [topologyLookup_parent, hnode] at hn
    simp only [hroot, Option.map_some', Option.getD_some] at hn
    have htx : ¬ (parentLookup perList 0).txTx > 0 := by
      rw [parentLookup_txTx_eq_find]
      cases hf : perList.reverse.find? (fun pp => decide (pp.SensorID = 0)) with
      | none => simp
      | some pp => exact hzero pp hf
  · rw [noiseLevel_own fuel M per _ hown htx] at hn
    exact hn
  · rw [noiseLevel_none fuel M per _ hown htx] at hn
    injection hn with hn
    exact hn.symm

/-- Witness of the amended C6: sensor 1 attached to the gateway, without traffic, and an entry
with sensor ID 0 that transmitted nothing. -/
theorem gateway_child_own_link_only_witness :
    (20 ≤ 20 ∧
      [idleSensor1, { idleSensor2 with SensorID := 0 }][0]? = some idleSensor1 ∧
      exampleTopology.find? (fun node => decide (idleSensor1.SensorID = node.SensorID)) =
        some { SensorID := 1, Parent := 0, Position := { Lat := 1, Lng := 2 } } ∧
      ({ SensorID := 1, Parent := 0, Position := { Lat := 1, Lng := 2 } } : Node ℚ).Parent = 0 ∧
      ∀ pp, [idleSensor1, { idleSensor2 with SensorID := 0 }].reverse.find?
          (fun pp => decide (pp.SensorID = 0)) = some pp → ¬ 0 < pp.MacTxTotalDiff) ∧
    ∃ out r, GetNoiseLevel 20 exampleFns "gw" exampleTopology
        [idleSensor1, { idleSensor2 with SensorID := 0 }] = .ok out ∧ out[0]? = some r ∧
      (0 < idleSensor1.MacRxTotalDiff →
        noiseCompute 20 (plr exampleFns) idleSensor1.MacRxTotalDiff
          (idleSensor1.MacTxNoACKDiff - idleSensor1.MacTxTotalDiff - idleSensor1.MacRxTotalDiff)
          idleSensor1.AvgRSSI 20 = .ok r.NoiseLevel) ∧
      (¬ 0 < idleSensor1.MacRxTotalDiff → r.NoiseLevel = (-99.0 : ℚ)) :=
  ⟨⟨by decide, rfl, rfl, rfl, by simp [idleSensor1, idleSensor2]⟩,
    gateway_child_own_link_only exampleFns "gw" exampleTopology
      [idleSensor1, { idleSensor2 with SensorID := 0 }] 20 0 idleSensor1
      { SensorID := 1, Parent := 0, Position := { Lat := 1, Lng := 2 } } (by decide) rfl rfl rfl
      (by simp [idleSensor1, idleSensor2])⟩

/-- C2 fails on the code: the topology has no node for sensor 2, yet the record of sensor 2
carries the position (1, 2) that the preceding iteration stored for sensor 1, not the zero
position. -/
theorem missing_node_keeps_previous_position :
    exampleTopology.find? (fun node => decide (idleSensor2.SensorID = node.SensorID)) = none ∧
    GetNoiseLevel 20 exampleFns "gw" exampleTopology [idleSensor1, idleSensor2] =
      .ok [{ Gateway := "gw", SensorID := 1, NoiseLevel := -99.0, Position := { Lat := 1, Lng := 2 } },
           { Gateway := "gw", SensorID := 2, NoiseLevel := -99.0, Position := { Lat := 1, Lng := 2 } }] := by
  refine ⟨rfl, ?_⟩
  simp [GetNoiseLevel, estimatorLoop, loopBody, topologyLookup, parentLookup, noiseLevel, acTx,
    exampleTopology, idleSensor1, idleSensor2, zeroNoiseLevelData, pure, Except.pure]

/-- C3 fails on the code: for the loss function `linearLoss`, target `1/2` and frame length 20
the first iteration of `snrDb` compares the target with `linearLoss (linearLoss 0) = 7/16`, the
loss at the previous loss value, and goes on, whereas the textbook bisection compares it with
`linearLoss 0 = 1/2` and returns the midpoint 0; `snrDb` ends with a value of at most `-1e-6`. -/
theorem snrDb_compares_loss_of_previous_loss :
    snrDbBody linearLoss (1 / 2) 20
        { midSNR := 0.000000, maxSNR := 4.000000, minSNR := -4.000000, midPLR := linearLoss 0.000000 20 } =
      .continued { midSNR := 0, maxSNR := -0.000001, minSNR := -4, midPLR := 7 / 16 } ∧
    snrDbTextbookBody linearLoss (1 / 2) 20
        { midSNR := 0.000000, maxSNR := 4.000000, minSNR := -4.000000, midPLR := linearLoss 0.000000 20 } =
      .returned 0 ∧
    snrDbTextbook 20 linearLoss (1 / 2) 20 = .ok 0 ∧
    ∃ v, snrDb 20 linearLoss (1 / 2) 20 = .ok v ∧ v ≤ -0.000001 := by
  have hb : snrDbBody linearLoss (1 / 2) 20
      { midSNR := 0.000000, maxSNR := 4.000000, minSNR := -4.000000, midPLR := linearLoss 0.000000 20 } =
      .continued { midSNR := 0, maxSNR := -0.000001, minSNR := -4, midPLR := 7 / 16 } := by
    norm_num [snrDbBody, linearLoss, abs_lt]
  have ht : snrDbTextbookBody linearLoss (1 / 2) 20
      { midSNR := 0.000000, maxSNR := 4.000000, minSNR := -4.000000, midPLR := linearLoss 0.000000 20 } =
      .returned 0 := by
    norm_num [snrDbTextbookBody, linearLoss]
  refine ⟨hb, ht, ?_, ?_⟩
  · unfold snrDbTextbook
    rw [snrDbTextbookLoop, if_pos (by norm_num [loopCond]), ht]
  · obtain ⟨v, hv, _, _⟩ := snrDb_ok_of_fuel linearLoss (1 / 2 : ℚ) 20 (le_refl 20)
    refine ⟨v, hv, ?_⟩
    unfold snrDb at hv
    rw [snrDbLoop_continued 19 (by norm_num [loopCond]) hb] at hv
    exact (snrDbLoop_bracket_of_loopCond _ _ _ (-4) (-0.000001) 19 _ v
      (by norm_num [loopCond, lt_abs]) (by norm_num) (by norm_num) (by norm_num) hv).2

set_option maxRecDepth 100000 in
/-- C4 fails on the code: `fact(21)` is already not `21!` (the 64-bit product has wrapped), and
the coefficient that `plr` uses for `i = 1` is `-90090608288/74494079819`, not `C(32,1) = 32`. -/
theorem fact_wraps_beyond_twenty :
    factInt 21 = -4249290049419214848 ∧ Nat.factorial 21 = 51090942171709440000 ∧
    (plrCoef 1 : ℚ) = -90090608288 / 74494079819 ∧ Nat.choose 32 1 = 32 := by
  refine ⟨factInt_values.2.1, by decide, ?_, by decide⟩
  simp only [plrCoef, fact, factInt_values.1, factInt_values.2.2.1, factInt_values.2.2.2]
  norm_num

/-- C9 fails on the code: for 100 received frames, 100 transmitted frames and 5 without
acknowledgement (all premises of the requirement hold), `acLost` is `-195` and the ratio that
`noiseCompute` passes to `snrDb` is `-39/20`, which is not in `[0, 1]`. -/
theorem own_link_ratio_is_negative :
    (0 ≤ busySensor1.MacRxTotalDiff ∧ 0 ≤ busySensor1.MacTxTotalDiff ∧
      0 ≤ busySensor1.MacTxNoACKDiff ∧ 0 ≤ busySensor1.MacTxLengthTotalDiff ∧
      busySensor1.MacTxNoACKDiff ≤ busySensor1.MacTxTotalDiff ∧ 0 < busySensor1.MacRxTotalDiff) ∧
    acTx busySensor1 = 100 ∧ acLost busySensor1 = -195 ∧
    checkedDiv (acLost busySensor1) (acTx busySensor1) = .ok (-39 / 20) ∧
    (∀ (fuel : Nat) (f : ℚ → ℚ → ℚ),
      noiseCompute fuel f (acTx busySensor1) (acLost busySensor1) (acRssi busySensor1) 20 =
        (snrDb fuel f (-39 / 20) 20).map (fun snr => -70 - snr)) ∧
    ¬ (0 ≤ (-39 / 20 : ℚ) ∧ (-39 / 20 : ℚ) ≤ 1) := by
  have h1 : acTx busySensor1 = 100 := rfl
  have h2 : acLost busySensor1 = -195 := by norm_num [acLost, busySensor1]
  have h3 : checkedDiv (-195 : ℚ) 100 = .ok (-39 / 20) := by
    rw [checkedDiv_ok _ (by norm_num)]; norm_num
  refine ⟨by norm_num [busySensor1], h1, h2, by rw [h1, h2, h3], ?_, by norm_num⟩
  intro fuel f
  have h4 : acRssi busySensor1 = -70 := rfl
  rw [h1, h2, h4, noiseCompute, h3]
  dsimp only
  cases snrDb fuel f (-39 / 20) 20 <;> rfl

end Claims

end NoiseModel

